import Mathlib

/-! # Wood stairs (dragonfly, `dragonfly/block/wood_stairs.go`)

A shallow embedding of the `WoodStairs` block: directional placement (`UseOnBlock`),
collision boxes (`AABB`), the item and block encodings (`EncodeItem`, `EncodeBlock`,
`toStairsDirection`) and the enumeration of all states (`allWoodStairs`).

Conventions of the embedding:

* Go `float32` coordinates are rationals. Every literal of the source (0, 0.5, 1) and every
  sum the source forms from them is exactly representable, so no rounding is lost.
* Go `int` and `int32` are integers wrapped to 64 and 32 bits in twos complement.
* A Go panic (index out of range, `panic("invalid wood type")`) is an `Except.error`.
* A Go slice is a `List`; a Go map literal is an association list read through `List.lookup`.
-/

/-! ## Imported packages -/

/-- Modelled from the spec: the `world` package is not among the sources. `world.Face` is
an integer type (the source writes `world.Face(2)`, `i <= 5`, `i++` and `v - 2`); the four
horizontal faces are numbered 2 to 5 in the order North, South, West, East, and the two
vertical faces Down and Up take the two numbers below them. -/
abbrev world.Face : Type := Int

/-- Modelled from the spec: the bottom face. -/
def world.Down : world.Face := 0

/-- Modelled from the spec: the top face. -/
def world.Up : world.Face := 1

/-- Modelled from the spec: horizontal face with ordinal 2. -/
def world.North : world.Face := 2

/-- Modelled from the spec: horizontal face with ordinal 3. -/
def world.South : world.Face := 3

/-- Modelled from the spec: horizontal face with ordinal 4. -/
def world.West : world.Face := 4

/-- Modelled from the spec: horizontal face with ordinal 5. -/
def world.East : world.Face := 5

/-- Modelled from the spec: a block position, three integer coordinates. -/
abbrev world.BlockPos : Type := Int × Int × Int

/-- Modelled from the spec: the `material` package is not among the sources. A wood type
is a value compared by equality; the six constructors below are pairwise distinct, and any
other tag stands for a value that is none of them. -/
structure material.Wood where
  wood : Nat
  deriving DecidableEq, Repr

/-- Modelled from the spec: oak, the first wood type. -/
def material.OakWood : material.Wood := ⟨0⟩

/-- Modelled from the spec: spruce, the second wood type. -/
def material.SpruceWood : material.Wood := ⟨1⟩

/-- Modelled from the spec: birch, the third wood type. -/
def material.BirchWood : material.Wood := ⟨2⟩

/-- Modelled from the spec: jungle, the fourth wood type. -/
def material.JungleWood : material.Wood := ⟨3⟩

/-- Modelled from the spec: acacia, the fifth wood type. -/
def material.AcaciaWood : material.Wood := ⟨4⟩

/-- Modelled from the spec: dark oak, the sixth wood type. -/
def material.DarkOakWood : material.Wood := ⟨5⟩

/-- The type `mgl32.Vec3`, an array of three floats; index 0 is `x`, 1 is `y`, 2 is `z`. -/
structure mgl32.Vec3 where
  x : ℚ
  y : ℚ
  z : ℚ
  deriving DecidableEq, Repr

/-- Componentwise sum of two vectors. -/
def mgl32.Vec3.Add (a b : mgl32.Vec3) : mgl32.Vec3 :=
  ⟨a.x + b.x, a.y + b.y, a.z + b.z⟩

/-- Modelled from the spec: the `physics` package is not among the sources. A bounding
volume is an axis-aligned box given by its two corner points. -/
structure physics.AABB where
  min : mgl32.Vec3
  max : mgl32.Vec3
  deriving DecidableEq, Repr

/-- Modelled from the spec: `physics.NewAABB(min, max)` builds the box with these corners. -/
def physics.NewAABB (min max : mgl32.Vec3) : physics.AABB := ⟨min, max⟩

/-- Modelled from the spec: `Translate` shifts a box, adding the vector to both corners. -/
def physics.AABB.Translate (b : physics.AABB) (by_ : mgl32.Vec3) : physics.AABB :=
  ⟨b.min.Add by_, b.max.Add by_⟩

/-! ## Go runtime helpers -/

/-- Twos-complement wrap of an integer to `w` bits. -/
def wrapInt (w : Nat) (x : Int) : Int :=
  (x + 2 ^ (w - 1)) % 2 ^ w - 2 ^ (w - 1)

/-- The read `b[i]` of a slice, which panics when `i` is out of range. -/
def indexGet {α : Type} (b : List α) (i : Nat) : Except String α :=
  match b.get? i with
  | some v => .ok v
  | none => .error "index out of range"

/-- The assignment `b[i] = v` of a slice, which panics when `i` is out of range. -/
def indexSet {α : Type} (b : List α) (i : Nat) (v : α) : Except String (List α) :=
  if i < b.length then .ok (b.set i v) else .error "index out of range"

/-! ## The block -/

/-- The struct `WoodStairs`. -/
structure WoodStairs where
  Wood : material.Wood
  UpsideDown : Bool
  Facing : world.Face
  deriving DecidableEq, Repr

/-- The method `WoodStairs.AABB` (lines 55 to 78). -/
def WoodStairs.AABB (s : WoodStairs) : Except String (List physics.AABB) := do
  let b : List physics.AABB := [physics.NewAABB ⟨0, 0, 0⟩ ⟨1, 1/2, 1⟩]
  let b ← if s.UpsideDown then indexSet b 0 (physics.NewAABB ⟨0, 1/2, 0⟩ ⟨1, 1, 1⟩) else pure b
  let b : List physics.AABB :=
    if s.Facing = world.North then b ++ [physics.NewAABB ⟨0, 0, 1/2⟩ ⟨1, 1/2, 1⟩]
    else if s.Facing = world.South then b ++ [physics.NewAABB ⟨0, 0, 0⟩ ⟨1, 1/2, 1/2⟩]
    else if s.Facing = world.East then b ++ [physics.NewAABB ⟨1/2, 0, 0⟩ ⟨1, 1/2, 1⟩]
    else if s.Facing = world.West then b ++ [physics.NewAABB ⟨0, 0, 0⟩ ⟨1/2, 1/2, 1⟩]
    else b
  if s.UpsideDown then do
    let b0 ← indexGet b 0
    indexSet b 0 (b0.Translate ⟨0, 1/2, 0⟩)
  else do
    let b1 ← indexGet b 1
    indexSet b 1 (b1.Translate ⟨0, 1/2, 0⟩)

/-- Whether a face is one of the four horizontal faces. -/
def horizontal (f : world.Face) : Prop :=
  f = world.North ∨ f = world.South ∨ f = world.West ∨ f = world.East

instance (f : world.Face) : Decidable (horizontal f) := by
  unfold horizontal; infer_instance

/-- Whether a coordinate lies between 0 and 1 inclusive. -/
def inUnit (c : ℚ) : Prop := 0 ≤ c ∧ c ≤ 1

/-- Whether a box lies inside the block-local unit cube: all six corner coordinates are
between 0 and 1 inclusive. -/
def inUnitCube (b : physics.AABB) : Prop :=
  inUnit b.min.x ∧ inUnit b.min.y ∧ inUnit b.min.z ∧
    inUnit b.max.x ∧ inUnit b.max.y ∧ inUnit b.max.z

/-- Result of `firstReplaceable`: the position and face to place at, and whether a
replaceable position was found. -/
abbrev Replaceable : Type := world.BlockPos × world.Face × Bool

/-- What `UseOnBlock` does: the arguments of its call of `place` (none when `place` is not
called) and the value it returns. -/
structure UseResult where
  place : Option (world.BlockPos × WoodStairs)
  used : Bool
  deriving DecidableEq, Repr

/-- The method `WoodStairs.UseOnBlock` (lines 25 to 37). The helpers `firstReplaceable`,
`place` and `placed` live in other files of the package and are arguments here:
`firstReplaceable` as a function of the world, the position, the face and the block, and
`placed` as the flag the use context holds after `place` ran with the given position and
block. `userFacing` is the value of `user.Facing()` and `clickPos.y` is `clickPos[1]`. -/
def WoodStairs.UseOnBlock {World : Type}
    (firstReplaceable : World → world.BlockPos → world.Face → WoodStairs → Replaceable)
    (placed : World → world.BlockPos → WoodStairs → Bool)
    (s : WoodStairs) (pos : world.BlockPos) (face : world.Face) (clickPos : mgl32.Vec3)
    (w : World) (userFacing : world.Face) : UseResult :=
  match firstReplaceable w pos face s with
  | (pos, face, used) =>
    if !used then ⟨none, used⟩
    else
      let s : WoodStairs := { s with Facing := userFacing }
      let s : WoodStairs :=
        if face = world.Down ∨ (clickPos.y > 1/2 ∧ face ≠ world.Up) then
          { s with UpsideDown := true }
        else s
      ⟨some (pos, s), placed w pos s⟩

/-- The method `WoodStairs.EncodeItem` (lines 81 to 97): the pair of id and meta. -/
def WoodStairs.EncodeItem (s : WoodStairs) : Except String (Int × Int) :=
  if s.Wood = material.OakWood then .ok (53, 0)
  else if s.Wood = material.SpruceWood then .ok (134, 0)
  else if s.Wood = material.BirchWood then .ok (135, 0)
  else if s.Wood = material.JungleWood then .ok (136, 0)
  else if s.Wood = material.AcaciaWood then .ok (163, 0)
  else if s.Wood = material.DarkOakWood then .ok (164, 0)
  else .error "invalid wood type"

/-- A value stored in a properties map: here a Go `bool` or a Go `int32`. -/
inductive PropValue where
  | bool (b : Bool)
  | int32 (n : Int)
  deriving DecidableEq, Repr

/-- A properties map `map[string]interface{}`, as the list of the entries of its literal. -/
abbrev Properties : Type := List (String × PropValue)

/-- The function `toStairsDirection` (lines 119 to 121): `int32(3 - (v - 2))`, computed in
the 64-bit type of `v` and then converted to 32 bits. -/
def toStairsDirection (v : world.Face) : Int :=
  wrapInt 32 (wrapInt 64 (3 - wrapInt 64 (v - 2)))

/-- The map literal every branch of `EncodeBlock` returns. -/
def stairsProperties (s : WoodStairs) : Properties :=
  [("upside_down_bit", .bool s.UpsideDown), ("weirdo_direction", .int32 (toStairsDirection s.Facing))]

/-- The method `WoodStairs.EncodeBlock` (lines 100 to 116): the pair of name and properties. -/
def WoodStairs.EncodeBlock (s : WoodStairs) : Except String (String × Properties) :=
  if s.Wood = material.OakWood then .ok ("minecraft:oak_stairs", stairsProperties s)
  else if s.Wood = material.SpruceWood then .ok ("minecraft:spruce_stairs", stairsProperties s)
  else if s.Wood = material.BirchWood then .ok ("minecraft:birch_stairs", stairsProperties s)
  else if s.Wood = material.JungleWood then .ok ("minecraft:jungle_stairs", stairsProperties s)
  else if s.Wood = material.AcaciaWood then .ok ("minecraft:acacia_stairs", stairsProperties s)
  else if s.Wood = material.DarkOakWood then .ok ("minecraft:dark_oak_stairs", stairsProperties s)
  else .error "invalid wood type"

/-- The closure `f` of `allWoodStairs` (lines 125 to 132): six appends to `stairs`. -/
def allWoodStairs.f (stairs : List WoodStairs) (facing : world.Face) (upsideDown : Bool) :
    List WoodStairs :=
  let stairs := stairs ++ [⟨material.OakWood, upsideDown, facing⟩]
  let stairs := stairs ++ [⟨material.SpruceWood, upsideDown, facing⟩]
  let stairs := stairs ++ [⟨material.BirchWood, upsideDown, facing⟩]
  let stairs := stairs ++ [⟨material.JungleWood, upsideDown, facing⟩]
  let stairs := stairs ++ [⟨material.AcaciaWood, upsideDown, facing⟩]
  stairs ++ [⟨material.DarkOakWood, upsideDown, facing⟩]

/-- The loop of `allWoodStairs` (lines 133 to 136) from the counter `i` on. The counter
stays between 2 and 6, so `i++` never wraps. -/
def allWoodStairs.loop (i : world.Face) (stairs : List WoodStairs) : List WoodStairs :=
  if _h : i ≤ 5 then
    allWoodStairs.loop (i + 1) (allWoodStairs.f (allWoodStairs.f stairs i true) i false)
  else stairs
termination_by (6 - i).toNat
decreasing_by
  simp_wf
  exact Int.lt_of_le_of_lt _h (by decide)

/-- The function `allWoodStairs` (lines 124 to 138). -/
def allWoodStairs : List WoodStairs :=
  allWoodStairs.loop 2 []

/-- Whether a wood value is one of the six wood types. -/
def validWood (m : material.Wood) : Prop :=
  m = material.OakWood ∨ m = material.SpruceWood ∨ m = material.BirchWood ∨
    m = material.JungleWood ∨ m = material.AcaciaWood ∨ m = material.DarkOakWood

instance (m : material.Wood) : Decidable (validWood m) := by
  unfold validWood; infer_instance

/-- Decoding by lookup: the first state of `allWoodStairs` that `EncodeBlock` encodes as
the name and properties `e`. -/
def decodeBlock (e : String × Properties) : Option WoodStairs :=
  allWoodStairs.find? (fun t =>
    match t.EncodeBlock with
    | .ok r => decide (r = e)
    | .error _ => false)

/-! ## Collision boxes: closed forms of `AABB` -/

theorem AABB_North_upright (w : material.Wood) :
    WoodStairs.AABB ⟨w, false, world.North⟩ =
      .ok [⟨⟨0, 0, 0⟩, ⟨1, 1/2, 1⟩⟩, ⟨⟨0, 1/2, 1/2⟩, ⟨1, 1, 1⟩⟩] := by
  simp [WoodStairs.AABB, indexSet, indexGet, physics.NewAABB, physics.AABB.Translate,
    mgl32.Vec3.Add, world.North, world.South, world.West, world.East, bind, Except.bind,
    pure, Except.pure]
  norm_num

theorem AABB_North_flipped (w : material.Wood) :
    WoodStairs.AABB ⟨w, true, world.North⟩ =
      .ok [⟨⟨0, 1, 0⟩, ⟨1, 3/2, 1⟩⟩, ⟨⟨0, 0, 1/2⟩, ⟨1, 1/2, 1⟩⟩] := by
  simp [WoodStairs.AABB, indexSet, indexGet, physics.NewAABB, physics.AABB.Translate,
    mgl32.Vec3.Add, world.North, world.South, world.West, world.East, bind, Except.bind,
    pure, Except.pure]
  norm_num

theorem AABB_South_upright (w : material.Wood) :
    WoodStairs.AABB ⟨w, false, world.South⟩ =
      .ok [⟨⟨0, 0, 0⟩, ⟨1, 1/2, 1⟩⟩, ⟨⟨0, 1/2, 0⟩, ⟨1, 1, 1/2⟩⟩] := by
  simp [WoodStairs.AABB, indexSet, indexGet, physics.NewAABB, physics.AABB.Translate,
    mgl32.Vec3.Add, world.North, world.South, world.West, world.East, bind, Except.bind,
    pure, Except.pure]
  norm_num

theorem AABB_South_flipped (w : material.Wood) :
    WoodStairs.AABB ⟨w, true, world.South⟩ =
      .ok [⟨⟨0, 1, 0⟩, ⟨1, 3/2, 1⟩⟩, ⟨⟨0, 0, 0⟩, ⟨1, 1/2, 1/2⟩⟩] := by
  simp [WoodStairs.AABB, indexSet, indexGet, physics.NewAABB, physics.AABB.Translate,
    mgl32.Vec3.Add, world.North, world.South, world.West, world.East, bind, Except.bind,
    pure, Except.pure]
  norm_num

theorem AABB_West_upright (w : material.Wood) :
    WoodStairs.AABB ⟨w, false, world.West⟩ =
      .ok [⟨⟨0, 0, 0⟩, ⟨1, 1/2, 1⟩⟩, ⟨⟨0, 1/2, 0⟩, ⟨1/2, 1, 1⟩⟩] := by
  simp [WoodStairs.AABB, indexSet, indexGet, physics.NewAABB, physics.AABB.Translate,
    mgl32.Vec3.Add, world.North, world.South, world.West, world.East, bind, Except.bind,
    pure, Except.pure]
  norm_num

theorem AABB_West_flipped (w : material.Wood) :
    WoodStairs.AABB ⟨w, true, world.West⟩ =
      .ok [⟨⟨0, 1, 0⟩, ⟨1, 3/2, 1⟩⟩, ⟨⟨0, 0, 0⟩, ⟨1/2, 1/2, 1⟩⟩] := by
  simp [WoodStairs.AABB, indexSet, indexGet, physics.NewAABB, physics.AABB.Translate,
    mgl32.Vec3.Add, world.North, world.South, world.West, world.East, bind, Except.bind,
    pure, Except.pure]
  norm_num

theorem AABB_East_upright (w : material.Wood) :
    WoodStairs.AABB ⟨w, false, world.East⟩ =
      .ok [⟨⟨0, 0, 0⟩, ⟨1, 1/2, 1⟩⟩, ⟨⟨1/2, 1/2, 0⟩, ⟨1, 1, 1⟩⟩] := by
  simp [WoodStairs.AABB, indexSet, indexGet, physics.NewAABB, physics.AABB.Translate,
    mgl32.Vec3.Add, world.North, world.South, world.West, world.East, bind, Except.bind,
    pure, Except.pure]
  norm_num

theorem AABB_East_flipped (w : material.Wood) :
    WoodStairs.AABB ⟨w, true, world.East⟩ =
      .ok [⟨⟨0, 1, 0⟩, ⟨1, 3/2, 1⟩⟩, ⟨⟨1/2, 0, 0⟩, ⟨1, 1/2, 1⟩⟩] := by
  simp [WoodStairs.AABB, indexSet, indexGet, physics.NewAABB, physics.AABB.Translate,
    mgl32.Vec3.Add, world.North, world.South, world.West, world.East, bind, Except.bind,
    pure, Except.pure]
  norm_num

/-! ## Claims on `AABB` -/

/-- C1: for every state whose Facing is one of the four horizontal faces, whatever its
UpsideDown and Wood, `AABB` returns normally (no index out of range) and the returned
slice has exactly two boxes. -/
theorem C1_AABB_two_boxes (s : WoodStairs) (h : horizontal s.Facing) :
    ∃ b0 b1 : physics.AABB, s.AABB = .ok [b0, b1] := by
  obtain ⟨w, u, f⟩ := s
  simp only [horizontal] at h
  rcases h with h | h | h | h <;> subst h <;> cases u
  · exact ⟨_, _, AABB_North_upright w⟩
  · exact ⟨_, _, AABB_North_flipped w⟩
  · exact ⟨_, _, AABB_South_upright w⟩
  · exact ⟨_, _, AABB_South_flipped w⟩
  · exact ⟨_, _, AABB_West_upright w⟩
  · exact ⟨_, _, AABB_West_flipped w⟩
  · exact ⟨_, _, AABB_East_upright w⟩
  · exact ⟨_, _, AABB_East_flipped w⟩

/-- Witness of C1 at spruce stairs facing West, upside down. -/
theorem C1_AABB_two_boxes_witness :
    horizontal world.West ∧
    ∃ b0 b1 : physics.AABB,
      WoodStairs.AABB ⟨material.SpruceWood, true, world.West⟩ = .ok [b0, b1] :=
  ⟨by decide, C1_AABB_two_boxes ⟨material.SpruceWood, true, world.West⟩ (by decide)⟩

/-- C2: the base box of an upside-down stair is not the upper half of the block. At oak
stairs facing North, upside down, `AABB` returns the base box with y from 1 to 3/2 (the
upper-half box of line 59 shifted up once more by line 73), not y from 1/2 to 1. -/
theorem C2_base_flipped_above_block :
    WoodStairs.AABB ⟨material.OakWood, true, world.North⟩ =
      .ok [⟨⟨0, 1, 0⟩, ⟨1, 3/2, 1⟩⟩, ⟨⟨0, 0, 1/2⟩, ⟨1, 1/2, 1⟩⟩] :=
  AABB_North_flipped material.OakWood

/-- C3: the riser of a stair facing East or West is on the wrong half of the footprint.
At oak stairs facing East, not upside down, `AABB` returns the riser (second box) with
x from 1/2 to 1, not x from 0 to 1/2; at oak stairs facing West it returns the riser with
x from 0 to 1/2, not x from 1/2 to 1. The North and South cases of the same switch put the
riser on the half opposite the facing; the East and West cases put it on the facing side. -/
theorem C3_riser_East_West_on_facing_side :
    WoodStairs.AABB ⟨material.OakWood, false, world.East⟩ =
        .ok [⟨⟨0, 0, 0⟩, ⟨1, 1/2, 1⟩⟩, ⟨⟨1/2, 1/2, 0⟩, ⟨1, 1, 1⟩⟩] ∧
      WoodStairs.AABB ⟨material.OakWood, false, world.West⟩ =
        .ok [⟨⟨0, 0, 0⟩, ⟨1, 1/2, 1⟩⟩, ⟨⟨0, 1/2, 0⟩, ⟨1/2, 1, 1⟩⟩] :=
  ⟨AABB_East_upright material.OakWood, AABB_West_upright material.OakWood⟩

/-- C4: for every state with a horizontal Facing, `AABB` returns two boxes in opposite
vertical halves chosen by the flip flag. Not upside down: the base has max y at most 1/2
and the riser min y at least 1/2. Upside down: the base has min y at least 1/2 and the
riser max y at most 1/2. Never are both boxes in the upper half (min y at least 1/2) or
both in the lower half (max y at most 1/2). -/
theorem C4_opposite_halves (s : WoodStairs) (h : horizontal s.Facing) :
    ∃ b0 b1 : physics.AABB, s.AABB = .ok [b0, b1] ∧
      (s.UpsideDown = false → b0.max.y ≤ 1/2 ∧ b1.min.y ≥ 1/2) ∧
      (s.UpsideDown = true → b0.min.y ≥ 1/2 ∧ b1.max.y ≤ 1/2) ∧
      ¬ (b0.min.y ≥ 1/2 ∧ b1.min.y ≥ 1/2) ∧
      ¬ (b0.max.y ≤ 1/2 ∧ b1.max.y ≤ 1/2) := by
  obtain ⟨w, u, f⟩ := s
  simp only [horizontal] at h
  rcases h with h | h | h | h <;> subst h <;> cases u
  · exact ⟨_, _, AABB_North_upright w, by norm_num⟩
  · exact ⟨_, _, AABB_North_flipped w, by norm_num⟩
  · exact ⟨_, _, AABB_South_upright w, by norm_num⟩
  · exact ⟨_, _, AABB_South_flipped w, by norm_num⟩
  · exact ⟨_, _, AABB_West_upright w, by norm_num⟩
  · exact ⟨_, _, AABB_West_flipped w, by norm_num⟩
  · exact ⟨_, _, AABB_East_upright w, by norm_num⟩
  · exact ⟨_, _, AABB_East_flipped w, by norm_num⟩

/-- Witness of C4 at birch stairs facing South, upside down. -/
theorem C4_opposite_halves_witness :
    horizontal world.South ∧
    ∃ b0 b1 : physics.AABB,
      WoodStairs.AABB ⟨material.BirchWood, true, world.South⟩ = .ok [b0, b1] ∧
      ((⟨material.BirchWood, true, world.South⟩ : WoodStairs).UpsideDown = false →
        b0.max.y ≤ 1/2 ∧ b1.min.y ≥ 1/2) ∧
      ((⟨material.BirchWood, true, world.South⟩ : WoodStairs).UpsideDown = true →
        b0.min.y ≥ 1/2 ∧ b1.max.y ≤ 1/2) ∧
      ¬ (b0.min.y ≥ 1/2 ∧ b1.min.y ≥ 1/2) ∧
      ¬ (b0.max.y ≤ 1/2 ∧ b1.max.y ≤ 1/2) :=
  ⟨by decide, C4_opposite_halves ⟨material.BirchWood, true, world.South⟩ (by decide)⟩

/-- C5: a box of an upside-down stair leaves the unit cube. At spruce stairs facing East,
upside down, the first box returned by `AABB` has max y equal to 3/2, which is above 1. -/
theorem C5_box_outside_unit_cube :
    ∃ b0 b1 : physics.AABB,
      WoodStairs.AABB ⟨material.SpruceWood, true, world.East⟩ = .ok [b0, b1] ∧
      b0.max.y = 3/2 ∧ ¬ (b0.max.y ≤ 1) :=
  ⟨_, _, AABB_East_flipped material.SpruceWood, by norm_num⟩

/-! ## What `AABB` does on either side of the flip flag -/

/-- For every state with a horizontal Facing and UpsideDown false, `AABB` returns the base
box (0,0,0) to (1,1/2,1) first, and both boxes lie inside the unit cube. -/
theorem AABB_upright_base_and_bounds (s : WoodStairs) (h : horizontal s.Facing)
    (hu : s.UpsideDown = false) :
    ∃ b0 b1 : physics.AABB, s.AABB = .ok [b0, b1] ∧
      b0 = ⟨⟨0, 0, 0⟩, ⟨1, 1/2, 1⟩⟩ ∧ inUnitCube b0 ∧ inUnitCube b1 := by
  obtain ⟨w, u, f⟩ := s
  simp only at hu
  subst hu
  simp only [horizontal] at h
  rcases h with h | h | h | h <;> subst h
  · exact ⟨_, _, AABB_North_upright w, rfl, by norm_num [inUnitCube, inUnit]⟩
  · exact ⟨_, _, AABB_South_upright w, rfl, by norm_num [inUnitCube, inUnit]⟩
  · exact ⟨_, _, AABB_West_upright w, rfl, by norm_num [inUnitCube, inUnit]⟩
  · exact ⟨_, _, AABB_East_upright w, rfl, by norm_num [inUnitCube, inUnit]⟩

/-- Witness of the upright case at oak stairs facing North. -/
theorem AABB_upright_base_and_bounds_witness :
    horizontal world.North ∧
    ∃ b0 b1 : physics.AABB,
      WoodStairs.AABB ⟨material.OakWood, false, world.North⟩ = .ok [b0, b1] ∧
      b0 = ⟨⟨0, 0, 0⟩, ⟨1, 1/2, 1⟩⟩ ∧ inUnitCube b0 ∧ inUnitCube b1 :=
  ⟨by decide,
    AABB_upright_base_and_bounds ⟨material.OakWood, false, world.North⟩ (by decide) rfl⟩

/-- For every state with a horizontal Facing and UpsideDown true, `AABB` returns the base
box (0,1,0) to (1,3/2,1) first, which is not inside the unit cube, and a riser that is. -/
theorem AABB_flipped_base (s : WoodStairs) (h : horizontal s.Facing)
    (hu : s.UpsideDown = true) :
    ∃ b0 b1 : physics.AABB, s.AABB = .ok [b0, b1] ∧
      b0 = ⟨⟨0, 1, 0⟩, ⟨1, 3/2, 1⟩⟩ ∧ ¬ inUnitCube b0 ∧ inUnitCube b1 := by
  obtain ⟨w, u, f⟩ := s
  simp only at hu
  subst hu
  simp only [horizontal] at h
  rcases h with h | h | h | h <;> subst h
  · exact ⟨_, _, AABB_North_flipped w, rfl, by norm_num [inUnitCube, inUnit]⟩
  · exact ⟨_, _, AABB_South_flipped w, rfl, by norm_num [inUnitCube, inUnit]⟩
  · exact ⟨_, _, AABB_West_flipped w, rfl, by norm_num [inUnitCube, inUnit]⟩
  · exact ⟨_, _, AABB_East_flipped w, rfl, by norm_num [inUnitCube, inUnit]⟩

/-- Witness of the upside-down case at dark oak stairs facing South. -/
theorem AABB_flipped_base_witness :
    horizontal world.South ∧
    ∃ b0 b1 : physics.AABB,
      WoodStairs.AABB ⟨material.DarkOakWood, true, world.South⟩ = .ok [b0, b1] ∧
      b0 = ⟨⟨0, 1, 0⟩, ⟨1, 3/2, 1⟩⟩ ∧ ¬ inUnitCube b0 ∧ inUnitCube b1 :=
  ⟨by decide, AABB_flipped_base ⟨material.DarkOakWood, true, world.South⟩ (by decide) rfl⟩

/-- For every state with a horizontal Facing the riser (second box) has a y-extent of
exactly 1/2; facing North it spans x in [0,1], z in [1/2,1] and facing South it spans
x in [0,1], z in [0,1/2]. -/
theorem AABB_riser_extent_North_South (s : WoodStairs) (h : horizontal s.Facing) :
    ∃ b0 b1 : physics.AABB, s.AABB = .ok [b0, b1] ∧ b1.max.y - b1.min.y = 1/2 ∧
      (s.Facing = world.North →
        b1.min.x = 0 ∧ b1.max.x = 1 ∧ b1.min.z = 1/2 ∧ b1.max.z = 1) ∧
      (s.Facing = world.South →
        b1.min.x = 0 ∧ b1.max.x = 1 ∧ b1.min.z = 0 ∧ b1.max.z = 1/2) := by
  obtain ⟨w, u, f⟩ := s
  simp only [horizontal] at h
  rcases h with h | h | h | h <;> subst h <;> cases u
  · exact ⟨_, _, AABB_North_upright w, by norm_num [world.North, world.South]⟩
  · exact ⟨_, _, AABB_North_flipped w, by norm_num [world.North, world.South]⟩
  · exact ⟨_, _, AABB_South_upright w, by norm_num [world.North, world.South]⟩
  · exact ⟨_, _, AABB_South_flipped w, by norm_num [world.North, world.South]⟩
  · exact ⟨_, _, AABB_West_upright w, by norm_num [world.North, world.South, world.West]⟩
  · exact ⟨_, _, AABB_West_flipped w, by norm_num [world.North, world.South, world.West]⟩
  · exact ⟨_, _, AABB_East_upright w, by norm_num [world.North, world.South, world.East]⟩
  · exact ⟨_, _, AABB_East_flipped w, by norm_num [world.North, world.South, world.East]⟩

/-- Witness of the riser extent at jungle stairs facing South, not upside down. -/
theorem AABB_riser_extent_North_South_witness :
    horizontal world.South ∧
    ∃ b0 b1 : physics.AABB,
      WoodStairs.AABB ⟨material.JungleWood, false, world.South⟩ = .ok [b0, b1] ∧
      b1.max.y - b1.min.y = 1/2 ∧
      ((⟨material.JungleWood, false, world.South⟩ : WoodStairs).Facing = world.North →
        b1.min.x = 0 ∧ b1.max.x = 1 ∧ b1.min.z = 1/2 ∧ b1.max.z = 1) ∧
      ((⟨material.JungleWood, false, world.South⟩ : WoodStairs).Facing = world.South →
        b1.min.x = 0 ∧ b1.max.x = 1 ∧ b1.min.z = 0 ∧ b1.max.z = 1/2) :=
  ⟨by decide,
    AABB_riser_extent_North_South ⟨material.JungleWood, false, world.South⟩ (by decide)⟩

/-! ## Claims on `UseOnBlock` -/

theorem UseOnBlock_place_of_used {World : Type}
    (firstReplaceable : World → world.BlockPos → world.Face → WoodStairs → Replaceable)
    (placed : World → world.BlockPos → WoodStairs → Bool)
    (s : WoodStairs) (pos : world.BlockPos) (face : world.Face) (clickPos : mgl32.Vec3)
    (w : World) (userFacing : world.Face) (pos1 : world.BlockPos) (face1 : world.Face)
    (hused : firstReplaceable w pos face s = (pos1, face1, true)) :
    (s.UseOnBlock firstReplaceable placed pos face clickPos w userFacing).place =
      some (pos1,
        if face1 = world.Down ∨ (clickPos.y > 1/2 ∧ face1 ≠ world.Up) then
          ⟨s.Wood, true, userFacing⟩
        else ⟨s.Wood, s.UpsideDown, userFacing⟩) := by
  unfold WoodStairs.UseOnBlock
  rw [hused]
  by_cases hc : face1 = world.Down ∨ (clickPos.y > 1/2 ∧ face1 ≠ world.Up)
  · simp only [Bool.not_true, Bool.false_eq_true, if_false, if_pos hc]
  · simp only [Bool.not_true, Bool.false_eq_true, if_false, if_neg hc]

/-- C6: whenever the placement goes ahead (`firstReplaceable` reports used, with the
possibly redirected position and face), if the face is Down, or the click y is above 1/2
and the face is not Up, then `place` is called with a block whose UpsideDown is true. In
particular with face North, click y 0.6 (read as the rational 3/5 or as the nearest
float32) and placer facing East, the block has Facing East and UpsideDown true. -/
theorem C6_UseOnBlock_sets_upside_down {World : Type}
    (firstReplaceable : World → world.BlockPos → world.Face → WoodStairs → Replaceable)
    (placed : World → world.BlockPos → WoodStairs → Bool)
    (s : WoodStairs) (pos : world.BlockPos) (face : world.Face) (clickPos : mgl32.Vec3)
    (w : World) (userFacing : world.Face) (pos1 : world.BlockPos) (face1 : world.Face)
    (hused : firstReplaceable w pos face s = (pos1, face1, true)) :
    (face1 = world.Down ∨ (clickPos.y > 1/2 ∧ face1 ≠ world.Up) →
      ∃ b : WoodStairs,
        (s.UseOnBlock firstReplaceable placed pos face clickPos w userFacing).place =
          some (pos1, b) ∧ b.UpsideDown = true) ∧
    (face1 = world.North → (clickPos.y = 3/5 ∨ clickPos.y = 5033165/8388608) →
      userFacing = world.East →
      ∃ b : WoodStairs,
        (s.UseOnBlock firstReplaceable placed pos face clickPos w userFacing).place =
          some (pos1, b) ∧ b.Facing = world.East ∧ b.UpsideDown = true) := by
  have hplace := UseOnBlock_place_of_used firstReplaceable placed s pos face clickPos w
    userFacing pos1 face1 hused
  constructor
  · intro hc
    rw [if_pos hc] at hplace
    exact ⟨_, hplace, rfl⟩
  · intro hf hy hu
    have hc : face1 = world.Down ∨ (clickPos.y > 1/2 ∧ face1 ≠ world.Up) := by
      right
      refine ⟨?_, by rw [hf]; decide⟩
      rcases hy with hy | hy <;> rw [hy] <;> norm_num
    rw [if_pos hc] at hplace
    exact ⟨_, hplace, hu, rfl⟩

/-- Witness of C6: an oak stair facing South is used on the North face at click height
3/5 by a placer facing East, in a world where the clicked side is replaceable. -/
theorem C6_UseOnBlock_sets_upside_down_witness :
    ((fun (_ : Unit) (p : world.BlockPos) (f : world.Face) (_ : WoodStairs) => (p, f, true))
        () (0, 0, 0) world.North ⟨material.OakWood, false, world.South⟩ =
      (((0, 0, 0), world.North, true) : Replaceable)) ∧
    ((world.North = world.Down ∨
        ((⟨1/2, 3/5, 1/2⟩ : mgl32.Vec3).y > 1/2 ∧ world.North ≠ world.Up) →
      ∃ b : WoodStairs,
        (WoodStairs.UseOnBlock (fun (_ : Unit) p f _ => (p, f, true)) (fun _ _ _ => true)
          ⟨material.OakWood, false, world.South⟩ (0, 0, 0) world.North ⟨1/2, 3/5, 1/2⟩ ()
          world.East).place = some ((0, 0, 0), b) ∧ b.UpsideDown = true) ∧
    (world.North = world.North →
      ((⟨1/2, 3/5, 1/2⟩ : mgl32.Vec3).y = 3/5 ∨
        (⟨1/2, 3/5, 1/2⟩ : mgl32.Vec3).y = 5033165/8388608) →
      world.East = world.East →
      ∃ b : WoodStairs,
        (WoodStairs.UseOnBlock (fun (_ : Unit) p f _ => (p, f, true)) (fun _ _ _ => true)
          ⟨material.OakWood, false, world.South⟩ (0, 0, 0) world.North ⟨1/2, 3/5, 1/2⟩ ()
          world.East).place = some ((0, 0, 0), b) ∧
        b.Facing = world.East ∧ b.UpsideDown = true)) :=
  ⟨rfl, C6_UseOnBlock_sets_upside_down (fun (_ : Unit) p f _ => (p, f, true))
    (fun _ _ _ => true) ⟨material.OakWood, false, world.South⟩ (0, 0, 0) world.North
    ⟨1/2, 3/5, 1/2⟩ () world.East (0, 0, 0) world.North rfl⟩

/-- C7: a click on the top face does not give UpsideDown false for every receiver. An oak
stair whose UpsideDown is already true, used on the Up face at click height 1 by a placer
facing East, is handed to `place` with UpsideDown still true: the source only ever sets
the field to true and has no branch that sets it to false. -/
theorem C7_UseOnBlock_keeps_upside_down :
    (WoodStairs.UseOnBlock (fun (_ : Unit) p f _ => (p, f, true)) (fun _ _ _ => true)
      ⟨material.OakWood, true, world.North⟩ (0, 0, 0) world.Up ⟨1/2, 1, 1/2⟩ ()
      world.East).place = some ((0, 0, 0), ⟨material.OakWood, true, world.East⟩) := by
  simp [WoodStairs.UseOnBlock, world.Up, world.Down]

/-- Whenever the placement goes ahead and the face is neither Down nor (not Up with a
click y above 1/2), `place` is called with a block whose UpsideDown is the one of the
receiver: false for a receiver that is not upside down, true for one that is. -/
theorem UseOnBlock_upside_down_kept {World : Type}
    (firstReplaceable : World → world.BlockPos → world.Face → WoodStairs → Replaceable)
    (placed : World → world.BlockPos → WoodStairs → Bool)
    (s : WoodStairs) (pos : world.BlockPos) (face : world.Face) (clickPos : mgl32.Vec3)
    (w : World) (userFacing : world.Face) (pos1 : world.BlockPos) (face1 : world.Face)
    (hused : firstReplaceable w pos face s = (pos1, face1, true))
    (hc : ¬ (face1 = world.Down ∨ (clickPos.y > 1/2 ∧ face1 ≠ world.Up))) :
    ∃ b : WoodStairs,
      (s.UseOnBlock firstReplaceable placed pos face clickPos w userFacing).place =
        some (pos1, b) ∧ b.UpsideDown = s.UpsideDown := by
  have hplace := UseOnBlock_place_of_used firstReplaceable placed s pos face clickPos w
    userFacing pos1 face1 hused
  rw [if_neg hc] at hplace
  exact ⟨_, hplace, rfl⟩

/-- Witness: a birch stair that is not upside down, used on the South face at click
height 1/4, is placed not upside down. -/
theorem UseOnBlock_upside_down_kept_witness :
    ((fun (_ : Unit) (p : world.BlockPos) (f : world.Face) (_ : WoodStairs) => (p, f, true))
        () (1, 2, 3) world.South ⟨material.BirchWood, false, world.North⟩ =
      (((1, 2, 3), world.South, true) : Replaceable)) ∧
    ¬ (world.South = world.Down ∨
        ((⟨1/2, 1/4, 0⟩ : mgl32.Vec3).y > 1/2 ∧ world.South ≠ world.Up)) ∧
    ∃ b : WoodStairs,
      (WoodStairs.UseOnBlock (fun (_ : Unit) p f _ => (p, f, true)) (fun _ _ _ => true)
        ⟨material.BirchWood, false, world.North⟩ (1, 2, 3) world.South ⟨1/2, 1/4, 0⟩ ()
        world.West).place = some ((1, 2, 3), b) ∧
      b.UpsideDown = (⟨material.BirchWood, false, world.North⟩ : WoodStairs).UpsideDown :=
  ⟨rfl, by norm_num [world.South, world.Down],
    UseOnBlock_upside_down_kept (fun (_ : Unit) p f _ => (p, f, true)) (fun _ _ _ => true)
      ⟨material.BirchWood, false, world.North⟩ (1, 2, 3) world.South ⟨1/2, 1/4, 0⟩ ()
      world.West (1, 2, 3) world.South rfl (by norm_num [world.South, world.Down])⟩

/-- C8: whenever the placement goes ahead, `place` is called with a block whose Facing is
the facing of the placer, whatever the clicked face (as given or as redirected), the click
position and the Facing of the receiver. -/
theorem C8_UseOnBlock_facing {World : Type}
    (firstReplaceable : World → world.BlockPos → world.Face → WoodStairs → Replaceable)
    (placed : World → world.BlockPos → WoodStairs → Bool)
    (s : WoodStairs) (pos : world.BlockPos) (face : world.Face) (clickPos : mgl32.Vec3)
    (w : World) (userFacing : world.Face) (pos1 : world.BlockPos) (face1 : world.Face)
    (hused : firstReplaceable w pos face s = (pos1, face1, true)) :
    ∃ b : WoodStairs,
      (s.UseOnBlock firstReplaceable placed pos face clickPos w userFacing).place =
        some (pos1, b) ∧ b.Facing = userFacing := by
  have hplace := UseOnBlock_place_of_used firstReplaceable placed s pos face clickPos w
    userFacing pos1 face1 hused
  by_cases hc : face1 = world.Down ∨ (clickPos.y > 1/2 ∧ face1 ≠ world.Up)
  · rw [if_pos hc] at hplace
    exact ⟨_, hplace, rfl⟩
  · rw [if_neg hc] at hplace
    exact ⟨_, hplace, rfl⟩

/-- Witness of C8: a dark oak stair facing North is used on the Down face by a placer
facing West, in a world that redirects the face to Up. -/
theorem C8_UseOnBlock_facing_witness :
    ((fun (_ : Unit) (p : world.BlockPos) (_ : world.Face) (_ : WoodStairs) =>
        ((p, world.Up, true) : Replaceable))
        () (3, 4, 5) world.Down ⟨material.DarkOakWood, false, world.North⟩ =
      ((3, 4, 5), world.Up, true)) ∧
    ∃ b : WoodStairs,
      (WoodStairs.UseOnBlock (fun (_ : Unit) p _ _ => (p, world.Up, true))
        (fun _ _ _ => true) ⟨material.DarkOakWood, false, world.North⟩ (3, 4, 5) world.Down
        ⟨1/4, 3/4, 1/4⟩ () world.West).place = some ((3, 4, 5), b) ∧
      b.Facing = world.West :=
  ⟨rfl, C8_UseOnBlock_facing (fun (_ : Unit) p _ _ => (p, world.Up, true))
    (fun _ _ _ => true) ⟨material.DarkOakWood, false, world.North⟩ (3, 4, 5) world.Down
    ⟨1/4, 3/4, 1/4⟩ () world.West (3, 4, 5) world.Up rfl⟩

/-! ## The enumeration and the encodings: shared facts -/

theorem allWoodStairs_eq :
    allWoodStairs =
      ([2, 3, 4, 5] : List world.Face).flatMap fun i =>
        [true, false].flatMap fun u =>
          [material.OakWood, material.SpruceWood, material.BirchWood, material.JungleWood,
            material.AcaciaWood, material.DarkOakWood].map fun w => ⟨w, u, i⟩ := by
  simp [allWoodStairs, allWoodStairs.loop, allWoodStairs.f]

theorem mem_allWoodStairs (s : WoodStairs) :
    s ∈ allWoodStairs ↔ validWood s.Wood ∧ horizontal s.Facing := by
  obtain ⟨w, u, f⟩ := s
  rw [allWoodStairs_eq]
  simp only [validWood, horizontal, world.North, world.South, world.West, world.East,
    List.mem_flatMap, List.mem_map, List.mem_cons, List.mem_singleton, List.not_mem_nil,
    or_false, WoodStairs.mk.injEq]
  constructor
  · rintro ⟨i, hi, b, -, m, hm, rfl, -, rfl⟩
    exact ⟨hm, by tauto⟩
  · rintro ⟨hw, hf⟩
    exact ⟨f, by tauto, u, by cases u <;> simp, w, hw, rfl, rfl, rfl⟩

theorem toStairsDirection_North : toStairsDirection world.North = 3 := by decide

theorem toStairsDirection_South : toStairsDirection world.South = 2 := by decide

theorem toStairsDirection_West : toStairsDirection world.West = 1 := by decide

theorem toStairsDirection_East : toStairsDirection world.East = 0 := by decide

theorem toStairsDirection_inj (f g : world.Face) (hf : horizontal f) (hg : horizontal g)
    (h : toStairsDirection f = toStairsDirection g) : f = g := by
  simp only [horizontal] at hf hg
  rcases hf with hf | hf | hf | hf <;> rcases hg with hg | hg | hg | hg <;> subst hf hg <;>
    first
    | rfl
    | (exfalso
       simp only [toStairsDirection_North, toStairsDirection_South, toStairsDirection_West,
         toStairsDirection_East] at h
       exact absurd h (by decide))

theorem EncodeBlock_ok (s : WoodStairs) (hw : validWood s.Wood) :
    ∃ n : String, s.EncodeBlock = .ok (n, stairsProperties s) := by
  simp only [validWood] at hw
  rcases hw with h | h | h | h | h | h <;>
    simp [WoodStairs.EncodeBlock, h, material.OakWood, material.SpruceWood,
      material.BirchWood, material.JungleWood, material.AcaciaWood, material.DarkOakWood]

theorem EncodeBlock_same_name (s t : WoodStairs) (n : String) (p q : Properties)
    (hs : s.EncodeBlock = .ok (n, p)) (ht : t.EncodeBlock = .ok (n, q)) :
    s.Wood = t.Wood ∧ p = stairsProperties s ∧ q = stairsProperties t := by
  unfold WoodStairs.EncodeBlock at hs ht
  split_ifs at hs ht <;>
    first
    | (simp at hs; done)
    | (simp at ht; done)
    | (simp only [Except.ok.injEq, Prod.mk.injEq] at hs ht
       obtain ⟨rfl, rfl⟩ := hs
       obtain ⟨hn, rfl⟩ := ht
       exact ⟨by simp_all, rfl, rfl⟩)

/-! ## Claims on `EncodeBlock` -/

/-- C9: for every state whose Wood is one of the six wood types, `EncodeBlock` returns a
properties map with exactly the two keys upside_down_bit and weirdo_direction, where
upside_down_bit is the UpsideDown of the state and weirdo_direction is
`toStairsDirection` of its Facing; on the four horizontal faces this is
3 - (Facing - 2): North gives 3, South 2, West 1 and East 0. -/
theorem C9_EncodeBlock_properties (s : WoodStairs) (hw : validWood s.Wood) :
    ∃ (n : String) (p : Properties), s.EncodeBlock = .ok (n, p) ∧
      p.map Prod.fst = ["upside_down_bit", "weirdo_direction"] ∧
      p.lookup "upside_down_bit" = some (.bool s.UpsideDown) ∧
      p.lookup "weirdo_direction" = some (.int32 (toStairsDirection s.Facing)) ∧
      (horizontal s.Facing → toStairsDirection s.Facing = 3 - (s.Facing - 2)) ∧
      toStairsDirection world.North = 3 ∧ toStairsDirection world.South = 2 ∧
      toStairsDirection world.West = 1 ∧ toStairsDirection world.East = 0 := by
  obtain ⟨n, hn⟩ := EncodeBlock_ok s hw
  refine ⟨n, stairsProperties s, hn, rfl, ?_, ?_, ?_, toStairsDirection_North,
    toStairsDirection_South, toStairsDirection_West, toStairsDirection_East⟩
  · simp [stairsProperties, List.lookup]
  · simp [stairsProperties, List.lookup]
  · intro hf
    simp only [horizontal] at hf
    rcases hf with hf | hf | hf | hf <;> rw [hf] <;> decide

/-- Witness of C9 at acacia stairs facing West, upside down. -/
theorem C9_EncodeBlock_properties_witness :
    validWood material.AcaciaWood ∧
    ∃ (n : String) (p : Properties),
      WoodStairs.EncodeBlock ⟨material.AcaciaWood, true, world.West⟩ = .ok (n, p) ∧
      p.map Prod.fst = ["upside_down_bit", "weirdo_direction"] ∧
      p.lookup "upside_down_bit" =
        some (.bool (⟨material.AcaciaWood, true, world.West⟩ : WoodStairs).UpsideDown) ∧
      p.lookup "weirdo_direction" =
        some (.int32 (toStairsDirection
          (⟨material.AcaciaWood, true, world.West⟩ : WoodStairs).Facing)) ∧
      (horizontal (⟨material.AcaciaWood, true, world.West⟩ : WoodStairs).Facing →
        toStairsDirection (⟨material.AcaciaWood, true, world.West⟩ : WoodStairs).Facing =
          3 - ((⟨material.AcaciaWood, true, world.West⟩ : WoodStairs).Facing - 2)) ∧
      toStairsDirection world.North = 3 ∧ toStairsDirection world.South = 2 ∧
      toStairsDirection world.West = 1 ∧ toStairsDirection world.East = 0 :=
  ⟨by decide, C9_EncodeBlock_properties ⟨material.AcaciaWood, true, world.West⟩ (by decide)⟩

/-- C10: `EncodeBlock` is injective on valid states. For a state `s` with one of the six
wood types and a horizontal Facing: any valid state `t` that `EncodeBlock` gives the same
name and properties maps that agree on every key is equal to `s`; and `s` is encoded
without failure, and looking its encoding up among the encodings of `allWoodStairs`
returns `s`. -/
theorem C10_EncodeBlock_injective (s t : WoodStairs) (hw : validWood s.Wood)
    (hf : horizontal s.Facing) :
    (validWood t.Wood → horizontal t.Facing →
      ∀ (n : String) (p q : Properties), s.EncodeBlock = .ok (n, p) →
        t.EncodeBlock = .ok (n, q) → (∀ k : String, p.lookup k = q.lookup k) → s = t) ∧
    ∃ e : String × Properties, s.EncodeBlock = .ok e ∧ decodeBlock e = some s := by
  have inj : ∀ r : WoodStairs, horizontal r.Facing →
      ∀ (n : String) (p q : Properties), s.EncodeBlock = .ok (n, p) →
        r.EncodeBlock = .ok (n, q) → (∀ k : String, p.lookup k = q.lookup k) → s = r := by
    intro r hrf n p q hs hr hk
    obtain ⟨hwood, rfl, rfl⟩ := EncodeBlock_same_name s r n p q hs hr
    have h1 := hk "upside_down_bit"
    have h2 := hk "weirdo_direction"
    simp [stairsProperties, List.lookup] at h1 h2
    obtain ⟨w, u, f⟩ := s
    obtain ⟨w1, u1, f1⟩ := r
    have h3 := toStairsDirection_inj f f1 hf hrf h2
    simp only at hwood h1
    subst hwood h1 h3
    rfl
  refine ⟨fun _ htf => inj t htf, ?_⟩
  obtain ⟨n, hn⟩ := EncodeBlock_ok s hw
  refine ⟨(n, stairsProperties s), hn, ?_⟩
  have hmem : s ∈ allWoodStairs := (mem_allWoodStairs s).2 ⟨hw, hf⟩
  unfold decodeBlock
  cases hfind : allWoodStairs.find? (fun t =>
      match t.EncodeBlock with
      | .ok r => decide (r = (n, stairsProperties s))
      | .error _ => false) with
  | none =>
    have hall := List.find?_eq_none.1 hfind s hmem
    simp [hn] at hall
  | some r =>
    have hr := List.find?_some hfind
    have hrmem := List.mem_of_find?_eq_some hfind
    have hrv := (mem_allWoodStairs r).1 hrmem
    cases hre : r.EncodeBlock with
    | error msg => simp [hre] at hr
    | ok e =>
      simp only [hre, decide_eq_true_eq] at hr
      subst hr
      rw [inj r hrv.2 n (stairsProperties s) (stairsProperties s) hn hre (fun _ => rfl)]

/-- Witness of C10 at jungle stairs facing East, compared with a state of the same fields. -/
theorem C10_EncodeBlock_injective_witness :
    validWood material.JungleWood ∧ horizontal world.East ∧
    ((validWood (⟨material.JungleWood, false, world.East⟩ : WoodStairs).Wood →
      horizontal (⟨material.JungleWood, false, world.East⟩ : WoodStairs).Facing →
      ∀ (n : String) (p q : Properties),
        WoodStairs.EncodeBlock ⟨material.JungleWood, false, world.East⟩ = .ok (n, p) →
        WoodStairs.EncodeBlock ⟨material.JungleWood, false, world.East⟩ = .ok (n, q) →
        (∀ k : String, p.lookup k = q.lookup k) →
        (⟨material.JungleWood, false, world.East⟩ : WoodStairs) =
          ⟨material.JungleWood, false, world.East⟩) ∧
    ∃ e : String × Properties,
      WoodStairs.EncodeBlock ⟨material.JungleWood, false, world.East⟩ = .ok e ∧
      decodeBlock e = some ⟨material.JungleWood, false, world.East⟩) :=
  ⟨by decide, by decide,
    C10_EncodeBlock_injective ⟨material.JungleWood, false, world.East⟩
      ⟨material.JungleWood, false, world.East⟩ (by decide) (by decide)⟩

/-! ## Claims on `EncodeItem` and on flipping -/

theorem EncodeItem_Oak (u : Bool) (f : world.Face) :
    WoodStairs.EncodeItem ⟨material.OakWood, u, f⟩ = .ok (53, 0) := by
  simp [WoodStairs.EncodeItem]

theorem EncodeItem_Spruce (u : Bool) (f : world.Face) :
    WoodStairs.EncodeItem ⟨material.SpruceWood, u, f⟩ = .ok (134, 0) := by
  simp [WoodStairs.EncodeItem, material.OakWood, material.SpruceWood]

theorem EncodeItem_Birch (u : Bool) (f : world.Face) :
    WoodStairs.EncodeItem ⟨material.BirchWood, u, f⟩ = .ok (135, 0) := by
  simp [WoodStairs.EncodeItem, material.OakWood, material.SpruceWood, material.BirchWood]

theorem EncodeItem_Jungle (u : Bool) (f : world.Face) :
    WoodStairs.EncodeItem ⟨material.JungleWood, u, f⟩ = .ok (136, 0) := by
  simp [WoodStairs.EncodeItem, material.OakWood, material.SpruceWood, material.BirchWood,
    material.JungleWood]

theorem EncodeItem_Acacia (u : Bool) (f : world.Face) :
    WoodStairs.EncodeItem ⟨material.AcaciaWood, u, f⟩ = .ok (163, 0) := by
  simp [WoodStairs.EncodeItem, material.OakWood, material.SpruceWood, material.BirchWood,
    material.JungleWood, material.AcaciaWood]

theorem EncodeItem_DarkOak (u : Bool) (f : world.Face) :
    WoodStairs.EncodeItem ⟨material.DarkOakWood, u, f⟩ = .ok (164, 0) := by
  simp [WoodStairs.EncodeItem, material.OakWood, material.SpruceWood, material.BirchWood,
    material.JungleWood, material.AcaciaWood, material.DarkOakWood]

/-- C11: the legacy id identifies exactly the material. For two states whose Wood is one
of the six wood types, `EncodeItem` returns normally for both with meta 0, the two ids are
equal if and only if the two Wood values are equal (whatever Facing and UpsideDown are),
and the id is 53 for oak, 134 for spruce, 135 for birch, 136 for jungle, 163 for acacia and
164 for dark oak. -/
theorem C11_EncodeItem_id_is_material (s t : WoodStairs) (hs : validWood s.Wood)
    (ht : validWood t.Wood) :
    ∃ i j : Int, s.EncodeItem = .ok (i, 0) ∧ t.EncodeItem = .ok (j, 0) ∧
      (i = j ↔ s.Wood = t.Wood) ∧
      (s.Wood = material.OakWood → i = 53) ∧ (s.Wood = material.SpruceWood → i = 134) ∧
      (s.Wood = material.BirchWood → i = 135) ∧ (s.Wood = material.JungleWood → i = 136) ∧
      (s.Wood = material.AcaciaWood → i = 163) ∧
      (s.Wood = material.DarkOakWood → i = 164) := by
  obtain ⟨w, u, f⟩ := s
  obtain ⟨w1, u1, f1⟩ := t
  simp only [validWood] at hs ht
  have key : ∀ (m : material.Wood) (b : Bool) (g : world.Face), validWood m →
      ∃ i : Int, WoodStairs.EncodeItem ⟨m, b, g⟩ = .ok (i, 0) ∧
        (m = material.OakWood ∧ i = 53 ∨ m = material.SpruceWood ∧ i = 134 ∨
          m = material.BirchWood ∧ i = 135 ∨ m = material.JungleWood ∧ i = 136 ∨
          m = material.AcaciaWood ∧ i = 163 ∨ m = material.DarkOakWood ∧ i = 164) := by
    intro m b g hm
    simp only [validWood] at hm
    rcases hm with h | h | h | h | h | h <;> subst h
    · exact ⟨_, EncodeItem_Oak b g, by simp⟩
    · exact ⟨_, EncodeItem_Spruce b g, by simp⟩
    · exact ⟨_, EncodeItem_Birch b g, by simp⟩
    · exact ⟨_, EncodeItem_Jungle b g, by simp⟩
    · exact ⟨_, EncodeItem_Acacia b g, by simp⟩
    · exact ⟨_, EncodeItem_DarkOak b g, by simp⟩
  obtain ⟨i, hi, hiw⟩ := key w u f hs
  obtain ⟨j, hj, hjw⟩ := key w1 u1 f1 ht
  refine ⟨i, j, hi, hj, ?_⟩
  simp only [material.OakWood, material.SpruceWood, material.BirchWood, material.JungleWood,
    material.AcaciaWood, material.DarkOakWood] at hiw hjw ⊢
  rcases hiw with ⟨h, hv⟩ | ⟨h, hv⟩ | ⟨h, hv⟩ | ⟨h, hv⟩ | ⟨h, hv⟩ | ⟨h, hv⟩ <;>
    rcases hjw with ⟨h1, hv1⟩ | ⟨h1, hv1⟩ | ⟨h1, hv1⟩ | ⟨h1, hv1⟩ | ⟨h1, hv1⟩ | ⟨h1, hv1⟩ <;>
    subst h hv h1 hv1 <;> simp

/-- Witness of C11 at spruce stairs facing North and spruce stairs facing East, upside
down: two states of the same wood. -/
theorem C11_EncodeItem_id_is_material_witness :
    validWood material.SpruceWood ∧
    ∃ i j : Int,
      WoodStairs.EncodeItem ⟨material.SpruceWood, false, world.North⟩ = .ok (i, 0) ∧
      WoodStairs.EncodeItem ⟨material.SpruceWood, true, world.East⟩ = .ok (j, 0) ∧
      (i = j ↔ (⟨material.SpruceWood, false, world.North⟩ : WoodStairs).Wood =
        (⟨material.SpruceWood, true, world.East⟩ : WoodStairs).Wood) ∧
      ((⟨material.SpruceWood, false, world.North⟩ : WoodStairs).Wood = material.OakWood →
        i = 53) ∧
      ((⟨material.SpruceWood, false, world.North⟩ : WoodStairs).Wood = material.SpruceWood →
        i = 134) ∧
      ((⟨material.SpruceWood, false, world.North⟩ : WoodStairs).Wood = material.BirchWood →
        i = 135) ∧
      ((⟨material.SpruceWood, false, world.North⟩ : WoodStairs).Wood = material.JungleWood →
        i = 136) ∧
      ((⟨material.SpruceWood, false, world.North⟩ : WoodStairs).Wood = material.AcaciaWood →
        i = 163) ∧
      ((⟨material.SpruceWood, false, world.North⟩ : WoodStairs).Wood = material.DarkOakWood →
        i = 164) :=
  ⟨by decide,
    C11_EncodeItem_id_is_material ⟨material.SpruceWood, false, world.North⟩
      ⟨material.SpruceWood, true, world.East⟩ (by decide) (by decide)⟩

/-- C12: flipping a state changes only the flip property of its encoding. For a state `s`
with one of the six wood types and a horizontal Facing, the state with the same Wood and
Facing and the opposite UpsideDown has the same `EncodeItem` result, the same `EncodeBlock`
name and the same weirdo_direction; the two properties maps agree on every key other than
upside_down_bit, where each holds the UpsideDown of its own state. For oak facing North
the direction code is 3 before and after the flip. -/
theorem C12_flip_changes_only_flip_bit (s : WoodStairs) (hw : validWood s.Wood)
    (_hf : horizontal s.Facing) :
    (⟨s.Wood, !s.UpsideDown, s.Facing⟩ : WoodStairs).EncodeItem = s.EncodeItem ∧
    (∃ (n : String) (p q : Properties), s.EncodeBlock = .ok (n, p) ∧
      (⟨s.Wood, !s.UpsideDown, s.Facing⟩ : WoodStairs).EncodeBlock = .ok (n, q) ∧
      p.lookup "weirdo_direction" = some (.int32 (toStairsDirection s.Facing)) ∧
      q.lookup "weirdo_direction" = some (.int32 (toStairsDirection s.Facing)) ∧
      (∀ k : String, k ≠ "upside_down_bit" → q.lookup k = p.lookup k) ∧
      p.lookup "upside_down_bit" = some (.bool s.UpsideDown) ∧
      q.lookup "upside_down_bit" = some (.bool (!s.UpsideDown)) ∧
      q.lookup "upside_down_bit" ≠ p.lookup "upside_down_bit") ∧
    WoodStairs.EncodeBlock ⟨material.OakWood, false, world.North⟩ =
      .ok ("minecraft:oak_stairs",
        [("upside_down_bit", .bool false), ("weirdo_direction", .int32 3)]) ∧
    WoodStairs.EncodeBlock ⟨material.OakWood, true, world.North⟩ =
      .ok ("minecraft:oak_stairs",
        [("upside_down_bit", .bool true), ("weirdo_direction", .int32 3)]) := by
  have hfix : ∀ b : Bool, WoodStairs.EncodeBlock ⟨material.OakWood, b, world.North⟩ =
      .ok ("minecraft:oak_stairs",
        [("upside_down_bit", .bool b), ("weirdo_direction", .int32 3)]) := by
    intro b
    simp [WoodStairs.EncodeBlock, stairsProperties, toStairsDirection_North]
  refine ⟨?_, ?_, hfix false, hfix true⟩
  · simp only [WoodStairs.EncodeItem]
  · have hw1 : validWood (⟨s.Wood, !s.UpsideDown, s.Facing⟩ : WoodStairs).Wood := hw
    obtain ⟨n, hn⟩ := EncodeBlock_ok s hw
    obtain ⟨m, hm⟩ := EncodeBlock_ok ⟨s.Wood, !s.UpsideDown, s.Facing⟩ hw1
    have hnm : m = n := by
      unfold WoodStairs.EncodeBlock at hn hm
      simp only at hm
      split_ifs at hn hm <;> simp_all
    subst hnm
    refine ⟨m, stairsProperties s, stairsProperties ⟨s.Wood, !s.UpsideDown, s.Facing⟩, hn, hm,
      ?_, ?_, ?_, ?_, ?_, ?_⟩
    · simp [stairsProperties, List.lookup]
    · simp [stairsProperties, List.lookup]
    · intro k hk
      have hk1 : (k == "upside_down_bit") = false := by simpa using hk
      simp [stairsProperties, List.lookup, hk1]
    · simp [stairsProperties, List.lookup]
    · simp [stairsProperties, List.lookup]
    · simp [stairsProperties, List.lookup]

/-- Witness of C12 at birch stairs facing West, not upside down. -/
theorem C12_flip_changes_only_flip_bit_witness :
    validWood material.BirchWood ∧ horizontal world.West ∧
    WoodStairs.EncodeItem ⟨material.BirchWood, true, world.West⟩ =
      WoodStairs.EncodeItem ⟨material.BirchWood, false, world.West⟩ ∧
    (∃ (n : String) (p q : Properties),
      WoodStairs.EncodeBlock ⟨material.BirchWood, false, world.West⟩ = .ok (n, p) ∧
      WoodStairs.EncodeBlock ⟨material.BirchWood, true, world.West⟩ = .ok (n, q) ∧
      p.lookup "weirdo_direction" = some (.int32 (toStairsDirection world.West)) ∧
      q.lookup "weirdo_direction" = some (.int32 (toStairsDirection world.West)) ∧
      (∀ k : String, k ≠ "upside_down_bit" → q.lookup k = p.lookup k) ∧
      p.lookup "upside_down_bit" = some (.bool false) ∧
      q.lookup "upside_down_bit" = some (.bool true) ∧
      q.lookup "upside_down_bit" ≠ p.lookup "upside_down_bit") :=
  ⟨by decide, by decide,
    (C12_flip_changes_only_flip_bit ⟨material.BirchWood, false, world.West⟩ (by decide)
      (by decide)).1,
    (C12_flip_changes_only_flip_bit ⟨material.BirchWood, false, world.West⟩ (by decide)
      (by decide)).2.1⟩

/-! ## Claims on failure, on the material and on vertical faces -/

theorem EncodeItem_invalid (s : WoodStairs) (hw : ¬ validWood s.Wood) :
    s.EncodeItem = .error "invalid wood type" := by
  simp only [validWood, not_or] at hw
  obtain ⟨h1, h2, h3, h4, h5, h6⟩ := hw
  simp [WoodStairs.EncodeItem, h1, h2, h3, h4, h5, h6]

theorem EncodeBlock_invalid (s : WoodStairs) (hw : ¬ validWood s.Wood) :
    s.EncodeBlock = .error "invalid wood type" := by
  simp only [validWood, not_or] at hw
  obtain ⟨h1, h2, h3, h4, h5, h6⟩ := hw
  simp [WoodStairs.EncodeBlock, h1, h2, h3, h4, h5, h6]

theorem EncodeItem_ok (s : WoodStairs) (hw : validWood s.Wood) :
    ∃ r : Int × Int, s.EncodeItem = .ok r := by
  obtain ⟨w, u, f⟩ := s
  simp only [validWood] at hw
  rcases hw with h | h | h | h | h | h <;> subst h
  · exact ⟨_, EncodeItem_Oak u f⟩
  · exact ⟨_, EncodeItem_Spruce u f⟩
  · exact ⟨_, EncodeItem_Birch u f⟩
  · exact ⟨_, EncodeItem_Jungle u f⟩
  · exact ⟨_, EncodeItem_Acacia u f⟩
  · exact ⟨_, EncodeItem_DarkOak u f⟩

/-- C15: `EncodeItem` and `EncodeBlock` fail, with the panic invalid wood type, if and only
if the Wood of the state is none of the six wood types; for each of the six they return
normally, whatever Facing and UpsideDown are. -/
theorem C15_encode_fails_iff_invalid_wood (s : WoodStairs) :
    ((∃ e : String, s.EncodeItem = .error e) ↔ ¬ validWood s.Wood) ∧
    ((∃ e : String, s.EncodeBlock = .error e) ↔ ¬ validWood s.Wood) ∧
    (¬ validWood s.Wood → s.EncodeItem = .error "invalid wood type" ∧
      s.EncodeBlock = .error "invalid wood type") ∧
    (validWood s.Wood → (∃ r : Int × Int, s.EncodeItem = .ok r) ∧
      ∃ r : String × Properties, s.EncodeBlock = .ok r) := by
  refine ⟨⟨?_, fun h => ⟨_, EncodeItem_invalid s h⟩⟩,
    ⟨?_, fun h => ⟨_, EncodeBlock_invalid s h⟩⟩,
    fun h => ⟨EncodeItem_invalid s h, EncodeBlock_invalid s h⟩, fun h => ⟨EncodeItem_ok s h, ?_⟩⟩
  · rintro ⟨e, he⟩ hv
    obtain ⟨r, hr⟩ := EncodeItem_ok s hv
    rw [hr] at he
    exact Except.noConfusion he
  · rintro ⟨e, he⟩ hv
    obtain ⟨n, hn⟩ := EncodeBlock_ok s hv
    rw [hn] at he
    exact Except.noConfusion he
  · obtain ⟨n, hn⟩ := EncodeBlock_ok s h
    exact ⟨_, hn⟩

/-- C17: the material does not influence geometry. Two states with the same Facing and
the same UpsideDown have the same `AABB` result, the same boxes in the same order or the
same failure, whatever their Wood values are. -/
theorem C17_AABB_ignores_wood (s t : WoodStairs) (hf : s.Facing = t.Facing)
    (hu : s.UpsideDown = t.UpsideDown) : s.AABB = t.AABB := by
  simp only [WoodStairs.AABB, hf, hu]

/-- Witness of C17 at oak and dark oak stairs, both facing a vertical face and not upside
down, where both calls fail alike. -/
theorem C17_AABB_ignores_wood_witness :
    WoodStairs.AABB ⟨material.OakWood, false, world.Up⟩ =
      WoodStairs.AABB ⟨material.DarkOakWood, false, world.Up⟩ :=
  C17_AABB_ignores_wood ⟨material.OakWood, false, world.Up⟩
    ⟨material.DarkOakWood, false, world.Up⟩ rfl rfl

/-- C18: `AABB` is not total on states with a vertical Facing. For every state whose
Facing is none of the four horizontal faces no riser is appended: with UpsideDown false
the write to index 1 of the one-element slice fails with an index out of range, and with
UpsideDown true exactly one box is returned. The faces Up and Down are such faces. -/
theorem C18_AABB_vertical_facing (s : WoodStairs) (h : ¬ horizontal s.Facing) :
    (s.UpsideDown = false → s.AABB = .error "index out of range") ∧
    (s.UpsideDown = true → ∃ b : physics.AABB, s.AABB = .ok [b]) ∧
    ¬ horizontal world.Up ∧ ¬ horizontal world.Down := by
  obtain ⟨w, u, f⟩ := s
  simp only [horizontal, not_or] at h
  obtain ⟨h1, h2, h3, h4⟩ := h
  refine ⟨?_, ?_, by decide, by decide⟩
  · intro hu
    simp only at hu h1 h2 h3 h4
    subst hu
    simp [WoodStairs.AABB, indexSet, indexGet, h1, h2, h3, h4, bind, Except.bind, pure,
      Except.pure]
  · intro hu
    simp only at hu h1 h2 h3 h4
    subst hu
    simp [WoodStairs.AABB, indexSet, indexGet, h1, h2, h3, h4, bind, Except.bind, pure,
      Except.pure]

/-- Witness of C18 at oak stairs facing Up. -/
theorem C18_AABB_vertical_facing_witness :
    ¬ horizontal world.Up ∧
    (WoodStairs.AABB ⟨material.OakWood, false, world.Up⟩ = .error "index out of range") ∧
    (∃ b : physics.AABB, WoodStairs.AABB ⟨material.OakWood, true, world.Up⟩ = .ok [b]) :=
  ⟨by decide,
    (C18_AABB_vertical_facing ⟨material.OakWood, false, world.Up⟩ (by decide)).1 rfl,
    (C18_AABB_vertical_facing ⟨material.OakWood, true, world.Up⟩ (by decide)).2.1 rfl⟩

/-- C20: `UseOnBlock` never changes the material. Whenever the placement goes ahead,
`place` is called with a block whose Wood is the Wood of the receiver, for every clicked
face, click position and placer facing. -/
theorem C20_UseOnBlock_keeps_wood {World : Type}
    (firstReplaceable : World → world.BlockPos → world.Face → WoodStairs → Replaceable)
    (placed : World → world.BlockPos → WoodStairs → Bool)
    (s : WoodStairs) (pos : world.BlockPos) (face : world.Face) (clickPos : mgl32.Vec3)
    (w : World) (userFacing : world.Face) (pos1 : world.BlockPos) (face1 : world.Face)
    (hused : firstReplaceable w pos face s = (pos1, face1, true)) :
    ∃ b : WoodStairs,
      (s.UseOnBlock firstReplaceable placed pos face clickPos w userFacing).place =
        some (pos1, b) ∧ b.Wood = s.Wood := by
  have hplace := UseOnBlock_place_of_used firstReplaceable placed s pos face clickPos w
    userFacing pos1 face1 hused
  by_cases hc : face1 = world.Down ∨ (clickPos.y > 1/2 ∧ face1 ≠ world.Up)
  · rw [if_pos hc] at hplace
    exact ⟨_, hplace, rfl⟩
  · rw [if_neg hc] at hplace
    exact ⟨_, hplace, rfl⟩

/-- Witness of C20: an acacia stair facing South is used on the Down face at click height
9/10 by a placer facing North, in a world where the clicked side is replaceable. -/
theorem C20_UseOnBlock_keeps_wood_witness :
    ((fun (_ : Unit) (p : world.BlockPos) (f : world.Face) (_ : WoodStairs) => (p, f, true))
        () (7, 8, 9) world.Down ⟨material.AcaciaWood, false, world.South⟩ =
      (((7, 8, 9), world.Down, true) : Replaceable)) ∧
    ∃ b : WoodStairs,
      (WoodStairs.UseOnBlock (fun (_ : Unit) p f _ => (p, f, true)) (fun _ _ _ => true)
        ⟨material.AcaciaWood, false, world.South⟩ (7, 8, 9) world.Down ⟨0, 9/10, 0⟩ ()
        world.North).place = some ((7, 8, 9), b) ∧
      b.Wood = (⟨material.AcaciaWood, false, world.South⟩ : WoodStairs).Wood :=
  ⟨rfl, C20_UseOnBlock_keeps_wood (fun (_ : Unit) p f _ => (p, f, true)) (fun _ _ _ => true)
    ⟨material.AcaciaWood, false, world.South⟩ (7, 8, 9) world.Down ⟨0, 9/10, 0⟩ ()
    world.North (7, 8, 9) world.Down rfl⟩

/-- Witness of C15 at a wood tag that is none of the six, and at oak. -/
theorem C15_encode_fails_iff_invalid_wood_witness :
    ¬ validWood ⟨6⟩ ∧
    (WoodStairs.EncodeItem ⟨⟨6⟩, false, world.North⟩ = .error "invalid wood type" ∧
      WoodStairs.EncodeBlock ⟨⟨6⟩, false, world.North⟩ = .error "invalid wood type") ∧
    validWood material.OakWood ∧
    ((∃ r : Int × Int, WoodStairs.EncodeItem ⟨material.OakWood, true, world.Up⟩ = .ok r) ∧
      ∃ r : String × Properties,
        WoodStairs.EncodeBlock ⟨material.OakWood, true, world.Up⟩ = .ok r) :=
  ⟨by decide,
    (C15_encode_fails_iff_invalid_wood ⟨⟨6⟩, false, world.North⟩).2.2.1 (by decide),
    by decide,
    (C15_encode_fails_iff_invalid_wood ⟨material.OakWood, true, world.Up⟩).2.2.2 (by decide)⟩

/-! ## Claims on `allWoodStairs` and `toStairsDirection` -/

theorem horizontal_iff (f : Int) : horizontal f ↔ 2 ≤ f ∧ f ≤ 5 := by
  constructor
  · intro h
    simp only [horizontal, world.North, world.South, world.West, world.East] at h
    rcases h with h | h | h | h <;> subst h <;> decide
  · rintro ⟨h1, h2⟩
    interval_cases f <;> decide

/-- C13: `allWoodStairs` returns exactly 48 states, 4 facings times 2 flips times 6 wood
types, and no two elements of the list are equal. -/
theorem C13_allWoodStairs_length_nodup :
    allWoodStairs.length = 48 ∧ allWoodStairs.length = 4 * 2 * 6 ∧ allWoodStairs.Nodup := by
  rw [allWoodStairs_eq]
  refine ⟨rfl, rfl, ?_⟩
  decide

/-- C14: `allWoodStairs` is complete and sound for the valid state space. A state occurs
in the list if and only if its Facing is one of the four horizontal faces, which are the
faces numbered 2 to 5, and its Wood is one of the six wood types, with either value of
UpsideDown; no state facing Up or Down occurs. -/
theorem C14_allWoodStairs_complete_sound (s : WoodStairs) :
    (s ∈ allWoodStairs ↔ horizontal s.Facing ∧ validWood s.Wood) ∧
    (horizontal s.Facing ↔ 2 ≤ s.Facing ∧ s.Facing ≤ 5) ∧
    (s ∈ allWoodStairs → s.Facing ≠ world.Up ∧ s.Facing ≠ world.Down) := by
  refine ⟨?_, horizontal_iff s.Facing, ?_⟩
  · rw [mem_allWoodStairs, and_comm]
  · intro hs
    have h := ((mem_allWoodStairs s).1 hs).2
    constructor <;> intro hv <;> rw [hv] at h <;> exact absurd h (by decide)

/-- C16: the list returned by `allWoodStairs` is ordered by facing, then flip, then
material. For a facing index `i` below 4, a flip index `j` below 2 and a wood index `k`
below 6 (in the order oak, spruce, birch, jungle, acacia, dark oak), the element at
position 12 i + 6 j + k has Facing 2 + i, the wood of index `k`, and UpsideDown true when
`j` is 0 and false when `j` is 1. -/
theorem C16_allWoodStairs_order (i j k : Nat) (hi : i < 4) (hj : j < 2) (hk : k < 6) :
    ∃ w : material.Wood,
      [material.OakWood, material.SpruceWood, material.BirchWood, material.JungleWood,
        material.AcaciaWood, material.DarkOakWood][k]? = some w ∧
      allWoodStairs[12 * i + 6 * j + k]? = some ⟨w, decide (j = 0), 2 + (i : Int)⟩ := by
  rw [allWoodStairs_eq]
  interval_cases i <;> interval_cases j <;> interval_cases k <;> exact ⟨_, rfl, rfl⟩

/-- Witness of C16 at facing index 2, flip index 1, wood index 3: position 33 holds the
jungle stair facing West, not upside down. -/
theorem C16_allWoodStairs_order_witness :
    2 < 4 ∧ 1 < 2 ∧ 3 < 6 ∧
    ∃ w : material.Wood,
      [material.OakWood, material.SpruceWood, material.BirchWood, material.JungleWood,
        material.AcaciaWood, material.DarkOakWood][3]? = some w ∧
      allWoodStairs[12 * 2 + 6 * 1 + 3]? = some ⟨w, decide (1 = 0), 2 + ((2 : Nat) : Int)⟩ :=
  ⟨by decide, by decide, by decide, C16_allWoodStairs_order 2 1 3 (by decide) (by decide)
    (by decide)⟩

/-- C19: `toStairsDirection` restricted to the four horizontal faces, the values 2 to 5,
is a bijection onto the codes 0 to 3: every result lies between 0 and 3, two different
horizontal faces never get the same code, and every code from 0 to 3 is the result of some
horizontal face. -/
theorem C19_toStairsDirection_bijection :
    (∀ f : world.Face, 2 ≤ f → f ≤ 5 →
      0 ≤ toStairsDirection f ∧ toStairsDirection f ≤ 3) ∧
    (∀ f g : world.Face, 2 ≤ f → f ≤ 5 → 2 ≤ g → g ≤ 5 →
      toStairsDirection f = toStairsDirection g → f = g) ∧
    (∀ c : Int, 0 ≤ c → c ≤ 3 →
      ∃ f : world.Face, 2 ≤ f ∧ f ≤ 5 ∧ horizontal f ∧ toStairsDirection f = c) := by
  refine ⟨?_, ?_, ?_⟩
  · intro f h1 h2
    have hf := (horizontal_iff f).2 ⟨h1, h2⟩
    simp only [horizontal] at hf
    rcases hf with h | h | h | h <;> subst h <;> decide
  · intro f g h1 h2 h3 h4 h
    exact toStairsDirection_inj f g ((horizontal_iff f).2 ⟨h1, h2⟩)
      ((horizontal_iff g).2 ⟨h3, h4⟩) h
  · intro c h1 h2
    interval_cases c
    · exact ⟨world.East, by decide, by decide, by decide, toStairsDirection_East⟩
    · exact ⟨world.West, by decide, by decide, by decide, toStairsDirection_West⟩
    · exact ⟨world.South, by decide, by decide, by decide, toStairsDirection_South⟩
    · exact ⟨world.North, by decide, by decide, by decide, toStairsDirection_North⟩

/-- Witness of C19: West has a code between 0 and 3, North and East having the same code
would be the same face, and the code 2 is the code of a horizontal face. -/
theorem C19_toStairsDirection_bijection_witness :
    (0 ≤ toStairsDirection world.West ∧ toStairsDirection world.West ≤ 3) ∧
    (toStairsDirection world.North = toStairsDirection world.East →
      world.North = world.East) ∧
    (∃ f : world.Face, 2 ≤ f ∧ f ≤ 5 ∧ horizontal f ∧ toStairsDirection f = 2) :=
  ⟨C19_toStairsDirection_bijection.1 world.West (by decide) (by decide),
    C19_toStairsDirection_bijection.2.1 world.North world.East (by decide) (by decide)
      (by decide) (by decide),
    C19_toStairsDirection_bijection.2.2 2 (by decide) (by decide)⟩
